import Mathlib

/-!
Verification development for the weatherly-control dashboard: a shallow
embedding of the chart data windower, the canvas renderer's scale and pixel
mapping, the nearest-sample hover lookup, the server-side aggregation join,
the CSV export, the time-range parsing/validation and the latest/status
routes, with theorems settling the specification's testable properties.

Numbers: JS numbers are modelled as exact rationals (ℚ) and epoch-millisecond
timestamps as integers; the code paths embedded here perform only field
arithmetic and comparisons on them.
-/

/-- One chart sample as consumed by the client chart component
(`TimeSeriesChart`): `{ timestamp, value }`, timestamp in epoch
milliseconds, value numeric. -/
structure Sample where
  timestamp : Int
  value : ℚ
deriving DecidableEq

/-- The chart's selectable display ranges: `timeRanges = ['1h','6h','24h','7d']`. -/
inductive TimeRange where
  | h1
  | h6
  | h24
  | d7
deriving DecidableEq

/-- The `timeRangeMs` lookup table inside `getProcessedData`. -/
def timeRangeMs : TimeRange → Int
  | .h1 => 60 * 60 * 1000
  | .h6 => 6 * 60 * 60 * 1000
  | .h24 => 24 * 60 * 60 * 1000
  | .d7 => 7 * 24 * 60 * 60 * 1000

/-- Timestamp order used by the chart's sort comparator
`(a, b) => new Date(a.timestamp) - new Date(b.timestamp)`. -/
def tsLE (a b : Sample) : Prop := a.timestamp ≤ b.timestamp

instance : DecidableRel tsLE :=
  fun a b => inferInstanceAs (Decidable (a.timestamp ≤ b.timestamp))

instance : IsTotal Sample tsLE :=
  ⟨fun a b => Int.le_total a.timestamp b.timestamp⟩

instance : IsTrans Sample tsLE :=
  ⟨fun _ _ _ hab hbc => le_trans hab hbc⟩

/-- `getProcessedData` from the chart component: on empty input return `[]`;
otherwise resolve the selected range to
`cutoffTime = now - timeRangeMs[selectedTimeRange]`, keep exactly the samples
with `timestamp >= cutoffTime`, and sort them ascending by timestamp
(JS `Array.prototype.sort` with a numeric comparator is modelled by
`insertionSort`, a stable sort producing a sorted permutation). -/
def getProcessedData (sensorData : List Sample) (selectedTimeRange : TimeRange)
    (now : Int) : List Sample :=
  if sensorData.isEmpty then []
  else
    let cutoffTime := now - timeRangeMs selectedTimeRange
    (sensorData.filter (fun d => cutoffTime ≤ d.timestamp)).insertionSort tsLE

/-- C2: for every input list and selected display window, the windower
resolves the enum to the cutoff `now - windowDuration` (the four durations
being 1h, 6h, 24h, 7d in milliseconds), returns only samples with
`timestamp >= cutoff`, sorted ascending by timestamp, and drops no in-range
sample: the output is a permutation of the in-range input samples. -/
theorem getProcessedData_window_sorted (sensorData : List Sample)
    (sel : TimeRange) (now : Int) :
    (∀ p ∈ getProcessedData sensorData sel now,
      now - timeRangeMs sel ≤ p.timestamp) ∧
    List.Sorted tsLE (getProcessedData sensorData sel now) ∧
    List.Perm (getProcessedData sensorData sel now)
      (sensorData.filter (fun d => now - timeRangeMs sel ≤ d.timestamp)) ∧
    (timeRangeMs .h1 = 3600000 ∧ timeRangeMs .h6 = 21600000 ∧
      timeRangeMs .h24 = 86400000 ∧ timeRangeMs .d7 = 604800000) := by
  refine ⟨?_, ?_, ?_, by decide⟩
  · intro p hp
    unfold getProcessedData at hp
    split at hp
    · simp at hp
    · have hp' := (List.mem_insertionSort tsLE).mp hp
      have := List.of_mem_filter hp'
      exact of_decide_eq_true this
  · unfold getProcessedData
    split
    · exact List.sorted_nil
    · exact List.sorted_insertionSort tsLE _
  · unfold getProcessedData
    split
    · rename_i hEmpty
      rw [List.isEmpty_iff.mp hEmpty]
      simp
    · exact List.perm_insertionSort tsLE _

/-- `Math.min(...xs)` on a nonempty argument list (the renderer only computes
extrema after the empty-data case has returned). -/
def jsMin {α : Type} [LinearOrder α] [Inhabited α] : List α → α
  | [] => default
  | x :: xs => xs.foldl min x

/-- `Math.max(...xs)` on a nonempty argument list. -/
def jsMax {α : Type} [LinearOrder α] [Inhabited α] : List α → α
  | [] => default
  | x :: xs => xs.foldl max x

/-- `minValue = Math.min(...values)` in `drawChart`. -/
def minValue (data : List Sample) : ℚ := jsMin (data.map Sample.value)

/-- `maxValue = Math.max(...values)` in `drawChart`. -/
def maxValue (data : List Sample) : ℚ := jsMax (data.map Sample.value)

/-- `valueRange = maxValue - minValue || 1` in `drawChart`: JS `||` replaces a
zero (falsy) difference by 1. -/
def valueRange (data : List Sample) : ℚ :=
  if maxValue data - minValue data = 0 then 1 else maxValue data - minValue data

/-- `minTime = Math.min(...timestamps)` in `drawChart`. -/
def minTime (data : List Sample) : Int := jsMin (data.map Sample.timestamp)

/-- `maxTime = Math.max(...timestamps)` in `drawChart`. -/
def maxTime (data : List Sample) : Int := jsMax (data.map Sample.timestamp)

/-- `timeRange = maxTime - minTime || 1` in `drawChart`. -/
def timeRange (data : List Sample) : Int :=
  if maxTime data - minTime data = 0 then 1 else maxTime data - minTime data

/-- C4: the renderer's Scale computation never yields a zero divisor: a
degenerate value range (`minValue == maxValue`) normalizes to `valueRange = 1`,
a degenerate time range to `timeRange = 1`, and both ranges are nonzero for
every series with at least one sample. -/
theorem scale_degenerate (data : List Sample) (h : data ≠ []) :
    (minValue data = maxValue data → valueRange data = 1) ∧
    (minTime data = maxTime data → timeRange data = 1) ∧
    valueRange data ≠ 0 ∧ timeRange data ≠ 0 := by
  refine ⟨?_, ?_, ?_, ?_⟩
  · intro hv
    unfold valueRange
    rw [← hv]
    simp
  · intro ht
    unfold timeRange
    rw [← ht]
    simp
  · unfold valueRange
    split
    · exact one_ne_zero
    · assumption
  · unfold timeRange
    split
    · exact one_ne_zero
    · assumption

/-- Witness for C4 at the concrete one-sample series `[{timestamp 0, value 5}]`,
which is degenerate in both value and time. -/
theorem scale_degenerate_witness :
    valueRange [⟨0, 5⟩] = 1 ∧ timeRange [⟨0, 5⟩] = 1 := by
  have h : ([⟨0, 5⟩] : List Sample) ≠ [] := by simp
  exact ⟨(scale_degenerate [⟨0, 5⟩] h).1 rfl,
    (scale_degenerate [⟨0, 5⟩] h).2.1 rfl⟩

/-- `padding.top` — the fixed inset `{top:30, right:30, bottom:50, left:50}`
shared by `drawChart` and `handleMouseMove`. -/
def padTop : ℚ := 30

/-- `padding.right`. -/
def padRight : ℚ := 30

/-- `padding.bottom`. -/
def padBottom : ℚ := 50

/-- `padding.left`. -/
def padLeft : ℚ := 50

/-- Pixel position of one sample as computed in `drawPoints` (and identically
in `drawLine`):
`x = padding.left + ((t - minTime) / timeRange) * (width - padding.left - padding.right)`,
`y = height - padding.bottom - ((v - minValue) / valueRange) * (height - padding.top - padding.bottom)`. -/
def drawPointPos (width height minV vR minT tR : ℚ) (point : Sample) : ℚ × ℚ :=
  (padLeft + (((point.timestamp : ℚ) - minT) / tR) * (width - padLeft - padRight),
   height - padBottom - ((point.value - minV) / vR) * (height - padTop - padBottom))

/-- The marker positions `drawChart` hands to `drawPoints`: every sample of the
windowed series, mapped through the scale computed from that same series. -/
def drawChartPoints (width height : ℚ) (data : List Sample) : List (ℚ × ℚ) :=
  data.map (drawPointPos width height (minValue data) (valueRange data)
    ((minTime data : ℚ)) ((timeRange data : ℚ)))

/-- C8 (as stated) fails on degenerate series: in the one-sample series
`[{timestamp 0, value 5}]` the sample with the highest value is that sample,
yet on a 400x256 surface it renders at `y = 206`, the bottom content edge
(`height - padding.bottom`), not at the top edge `padding.top = 30`: the
degenerate scale (`minValue == maxValue`, `valueRange` normalized to 1) maps
every value to the bottom. -/
theorem drawPoints_extremes_cex :
    (drawPointPos 400 256 (minValue [⟨0, 5⟩]) (valueRange [⟨0, 5⟩])
      ((minTime [⟨0, 5⟩] : ℚ)) ((timeRange [⟨0, 5⟩] : ℚ)) ⟨0, 5⟩).2 = 206 ∧
    (⟨0, 5⟩ : Sample).value = maxValue [⟨0, 5⟩] ∧
    (206 : ℚ) ≠ padTop := by
  refine ⟨?_, by decide, by decide⟩
  show (256 : ℚ) - padBottom - ((5 - minValue [⟨0, 5⟩]) / valueRange [⟨0, 5⟩])
      * (256 - padTop - padBottom) = 206
  norm_num [minValue, valueRange, maxValue, jsMin, jsMax, padTop, padBottom]

/-- C8 (amended): under the renderer's min-max scale, the lowest-valued sample
always renders exactly at the bottom content edge
(`y = height - padding.bottom`), and provided the windowed series has two
distinct values (`minValue < maxValue`) the highest-valued sample renders
exactly at the top content edge (`y = padding.top`), regardless of the
absolute magnitude of the values; in the degenerate case `minValue == maxValue`
every sample (including the highest-valued) renders at the bottom edge. -/
theorem drawPoints_extremes (width height : ℚ) (data : List Sample)
    (p : Sample) (hp : p ∈ data) :
    (p.value = minValue data →
      (drawPointPos width height (minValue data) (valueRange data)
        ((minTime data : ℚ)) ((timeRange data : ℚ)) p).2 = height - padBottom) ∧
    (minValue data < maxValue data → p.value = maxValue data →
      (drawPointPos width height (minValue data) (valueRange data)
        ((minTime data : ℚ)) ((timeRange data : ℚ)) p).2 = padTop) := by
  constructor
  · intro hv
    show height - padBottom - ((p.value - minValue data) / valueRange data)
        * (height - padTop - padBottom) = height - padBottom
    rw [hv]
    simp
  · intro hlt hv
    have hne : maxValue data - minValue data ≠ 0 := by
      intro h0
      exact absurd (sub_eq_zero.mp h0).symm (ne_of_lt hlt)
    show height - padBottom - ((p.value - minValue data) / valueRange data)
        * (height - padTop - padBottom) = padTop
    rw [hv]
    unfold valueRange
    rw [if_neg hne, div_self hne]
    unfold padTop padBottom
    ring

/-- Witness for C8 at the two-sample series `[{0, 1}, {10, 3}]` on a 400x256
surface: the lowest-valued sample renders at `y = 206 = height - 50` and the
highest-valued one at `y = 30 = padding.top`. -/
theorem drawPoints_extremes_witness :
    (drawPointPos 400 256 (minValue [⟨0, 1⟩, ⟨10, 3⟩]) (valueRange [⟨0, 1⟩, ⟨10, 3⟩])
      ((minTime [⟨0, 1⟩, ⟨10, 3⟩] : ℚ)) ((timeRange [⟨0, 1⟩, ⟨10, 3⟩] : ℚ)) ⟨0, 1⟩).2
      = 256 - padBottom ∧
    (drawPointPos 400 256 (minValue [⟨0, 1⟩, ⟨10, 3⟩]) (valueRange [⟨0, 1⟩, ⟨10, 3⟩])
      ((minTime [⟨0, 1⟩, ⟨10, 3⟩] : ℚ)) ((timeRange [⟨0, 1⟩, ⟨10, 3⟩] : ℚ)) ⟨10, 3⟩).2
      = padTop := by
  constructor
  · exact (drawPoints_extremes 400 256 [⟨0, 1⟩, ⟨10, 3⟩] ⟨0, 1⟩
      (by simp)).1 (by decide)
  · exact (drawPoints_extremes 400 256 [⟨0, 1⟩, ⟨10, 3⟩] ⟨10, 3⟩
      (by simp)).2 (by decide) (by decide)

/-- Pixel position of one sample as recomputed inside `handleMouseMove` — the
source repeats the very formula of `drawPoints` (with `rect.width`/`rect.height`
for the same surface dimensions). -/
def hoverPointPos (width height minV vR minT tR : ℚ) (point : Sample) : ℚ × ℚ :=
  (padLeft + (((point.timestamp : ℚ) - minT) / tR) * (width - padLeft - padRight),
   height - padBottom - ((point.value - minV) / vR) * (height - padTop - padBottom))

/-- Squared Euclidean pixel distance. The source computes
`Math.sqrt((mouseX-x)^2 + (mouseY-y)^2)` and compares it with `<`; square root
is strictly monotone on nonnegative reals, so `sqrt d1 < sqrt d2` iff
`d1 < d2` and `sqrt d < 15` iff `d < 225`, and the embedding compares the
squares. -/
def distSq (mouseX mouseY x y : ℚ) : ℚ := (mouseX - x) ^ 2 + (mouseY - y) ^ 2

/-- Squared distance from the pointer to one sample's hover pixel position,
under the scale `handleMouseMove` recomputes from the windowed data. -/
def hoverDistSq (width height : ℚ) (data : List Sample) (mouseX mouseY : ℚ)
    (point : Sample) : ℚ :=
  let pos := hoverPointPos width height (minValue data) (valueRange data)
    ((minTime data : ℚ)) ((timeRange data : ℚ)) point
  distSq mouseX mouseY pos.1 pos.2

/-- The `data.forEach` accumulator loop of `handleMouseMove`: `closestPoint`
and `closestDistance` start as `null`/`Infinity` (modelled by `none`), and a
sample replaces them exactly when
`distance < closestDistance && distance < 15` (squared: `< 225`). -/
def closestAux (d : Sample → ℚ) : List Sample → Option (Sample × ℚ) → Option (Sample × ℚ)
  | [], acc => acc
  | point :: rest, none =>
      if d point < 225 then closestAux d rest (some (point, d point))
      else closestAux d rest none
  | point :: rest, some (best, bestDist) =>
      if d point < bestDist ∧ d point < 225 then
        closestAux d rest (some (point, d point))
      else closestAux d rest (some (best, bestDist))

/-- The nearest-sample lookup of `handleMouseMove`: on empty windowed data the
handler returns early with no sample selected; otherwise it runs the
accumulator loop and the tooltip shows the selected sample (`none` = tooltip
hidden). -/
def handleMouseMove (width height : ℚ) (data : List Sample) (mouseX mouseY : ℚ) :
    Option Sample :=
  if data.isEmpty then none
  else (closestAux (hoverDistSq width height data mouseX mouseY) data none).map Prod.fst

/-- Reference recursion: the strictly-better-or-keep scan that `closestAux`
performs once a best sample exists (ties keep the earlier sample). -/
def bestFrom (d : Sample → ℚ) (p0 : Sample) : List Sample → Sample
  | [] => p0
  | q :: l => if d q < d p0 then bestFrom d q l else bestFrom d p0 l

/-- Reference recursion for the whole loop: skip samples at squared distance
`>= 225` until the first qualifying one, then scan with `bestFrom`. -/
def closestSpec (d : Sample → ℚ) : List Sample → Option Sample
  | [] => none
  | q :: l => if d q < 225 then some (bestFrom d q l) else closestSpec d l

theorem closestAux_some (d : Sample → ℚ) (l : List Sample) (p0 : Sample)
    (h : d p0 < 225) :
    closestAux d l (some (p0, d p0)) = some (bestFrom d p0 l, d (bestFrom d p0 l)) := by
  induction l generalizing p0 with
  | nil => simp [closestAux, bestFrom]
  | cons q t ih =>
    by_cases hq : d q < d p0
    · have h225 : d q < 225 := lt_trans hq h
      rw [closestAux, if_pos ⟨hq, h225⟩, bestFrom, if_pos hq]
      exact ih q h225
    · have : ¬ (d q < d p0 ∧ d q < 225) := fun hc => hq hc.1
      rw [closestAux, if_neg this, bestFrom, if_neg hq]
      exact ih p0 h

theorem closestAux_none_eq_spec (d : Sample → ℚ) (l : List Sample) :
    (closestAux d l none).map Prod.fst = closestSpec d l := by
  induction l with
  | nil => rfl
  | cons q t ih =>
    by_cases hq : d q < 225
    · rw [closestAux, if_pos hq, closestSpec, if_pos hq, closestAux_some d t q hq]
      rfl
    · rw [closestAux, if_neg hq, closestSpec, if_neg hq]
      exact ih

theorem bestFrom_le (d : Sample → ℚ) (p0 : Sample) (l : List Sample) :
    d (bestFrom d p0 l) ≤ d p0 ∧ ∀ q ∈ l, d (bestFrom d p0 l) ≤ d q := by
  induction l generalizing p0 with
  | nil => exact ⟨le_refl _, by simp⟩
  | cons q t ih =>
    by_cases hq : d q < d p0
    · rw [bestFrom, if_pos hq]
      refine ⟨le_of_lt (lt_of_le_of_lt (ih q).1 hq), ?_⟩
      intro r hr
      rcases List.mem_cons.mp hr with heq | hr
      · rw [heq]; exact (ih q).1
      · exact (ih q).2 r hr
    · rw [bestFrom, if_neg hq]
      refine ⟨(ih p0).1, ?_⟩
      intro r hr
      rcases List.mem_cons.mp hr with heq | hr
      · rw [heq]; exact le_trans (ih p0).1 (le_of_not_lt hq)
      · exact (ih p0).2 r hr

theorem bestFrom_split (d : Sample → ℚ) (p0 : Sample) (l : List Sample) :
    bestFrom d p0 l = p0 ∨
    ∃ l1 l2, l = l1 ++ bestFrom d p0 l :: l2 ∧ d (bestFrom d p0 l) < d p0 ∧
      ∀ q ∈ l1, d (bestFrom d p0 l) < d q := by
  induction l generalizing p0 with
  | nil => exact Or.inl rfl
  | cons q t ih =>
    by_cases hq : d q < d p0
    · rw [bestFrom, if_pos hq]
      rcases ih q with h0 | ⟨t1, t2, ht, hlt, hall⟩
      · refine Or.inr ⟨[], t, by simp [h0], by rw [h0]; exact hq, by simp⟩
      · refine Or.inr ⟨q :: t1, t2, by rw [List.cons_append, ← ht],
          lt_trans hlt hq, ?_⟩
        intro r hr
        rcases List.mem_cons.mp hr with heq | hr
        · rw [heq]; exact hlt
        · exact hall r hr
    · rw [bestFrom, if_neg hq]
      rcases ih p0 with h0 | ⟨t1, t2, ht, hlt, hall⟩
      · exact Or.inl h0
      · refine Or.inr ⟨q :: t1, t2, by rw [List.cons_append, ← ht], hlt, ?_⟩
        intro r hr
        rcases List.mem_cons.mp hr with heq | hr
        · rw [heq]; exact lt_of_lt_of_le hlt (le_of_not_lt hq)
        · exact hall r hr

theorem closestSpec_split (d : Sample → ℚ) (l : List Sample) (p : Sample)
    (h : closestSpec d l = some p) :
    ∃ l1 l2, l = l1 ++ p :: l2 ∧ d p < 225 ∧ (∀ q ∈ l, d p ≤ d q) ∧
      ∀ q ∈ l1, d p < d q := by
  induction l with
  | nil => simp [closestSpec] at h
  | cons q t ih =>
    by_cases hq : d q < 225
    · rw [closestSpec, if_pos hq, Option.some_inj] at h
      subst h
      rcases bestFrom_split d q t with h0 | ⟨t1, t2, ht, hlt, hall⟩
      · refine ⟨[], t, by simp [h0], by rw [h0]; exact hq, ?_, by simp⟩
        intro r hr
        rcases List.mem_cons.mp hr with heq | hr
        · rw [heq, h0]
        · exact (bestFrom_le d q t).2 r hr
      · refine ⟨q :: t1, t2, by rw [List.cons_append, ← ht],
          lt_trans hlt hq, ?_, ?_⟩
        · intro r hr
          rcases List.mem_cons.mp hr with heq | hr
          · rw [heq]; exact le_of_lt hlt
          · exact (bestFrom_le d q t).2 r hr
        · intro r hr
          rcases List.mem_cons.mp hr with heq | hr
          · rw [heq]; exact hlt
          · exact hall r hr
    · rw [closestSpec, if_neg hq] at h
      rcases ih h with ⟨t1, t2, ht, h225, hmin, hfirst⟩
      have hqge : d p < d q := lt_of_lt_of_le h225 (le_of_not_lt hq)
      refine ⟨q :: t1, t2, by rw [List.cons_append, ← ht], h225, ?_, ?_⟩
      · intro r hr
        rcases List.mem_cons.mp hr with heq | hr
        · rw [heq]; exact le_of_lt hqge
        · exact hmin r hr
      · intro r hr
        rcases List.mem_cons.mp hr with heq | hr
        · rw [heq]; exact hqge
        · exact hfirst r hr

theorem closestSpec_none (d : Sample → ℚ) (l : List Sample)
    (h : ∀ q ∈ l, 225 ≤ d q) : closestSpec d l = none := by
  induction l with
  | nil => rfl
  | cons q t ih =>
    rw [closestSpec, if_neg (not_lt.mpr (h q (List.mem_cons_self q t)))]
    exact ih fun r hr => h r (List.mem_cons_of_mem q hr)

theorem closestSpec_isSome (d : Sample → ℚ) (l : List Sample) (q : Sample)
    (hq : q ∈ l) (h : d q < 225) : ∃ p, closestSpec d l = some p := by
  induction l with
  | nil => simp at hq
  | cons r t ih =>
    by_cases hr : d r < 225
    · exact ⟨bestFrom d r t, by rw [closestSpec, if_pos hr]⟩
    · rcases List.mem_cons.mp hq with rfl | hq'
      · exact absurd h hr
      · rcases ih hq' with ⟨p, hp⟩
        exact ⟨p, by rw [closestSpec, if_neg hr]; exact hp⟩

theorem handleMouseMove_eq_spec (width height : ℚ) (data : List Sample)
    (mouseX mouseY : ℚ) :
    handleMouseMove width height data mouseX mouseY
      = closestSpec (hoverDistSq width height data mouseX mouseY) data := by
  unfold handleMouseMove
  split
  · rename_i hEmpty
    rw [List.isEmpty_iff.mp hEmpty]
    rfl
  · exact closestAux_none_eq_spec _ data

theorem distSq_nonneg (mx my x y : ℚ) : 0 ≤ distSq mx my x y :=
  add_nonneg (sq_nonneg _) (sq_nonneg _)

theorem distSq_eq_zero_iff (mx my x y : ℚ) :
    distSq mx my x y = 0 ↔ x = mx ∧ y = my := by
  unfold distSq
  constructor
  · intro h
    have h1 : (mx - x) ^ 2 = 0 := by
      nlinarith [sq_nonneg (mx - x), sq_nonneg (my - y)]
    have h2 : (my - y) ^ 2 = 0 := by
      nlinarith [sq_nonneg (mx - x), sq_nonneg (my - y)]
    have hx := sub_eq_zero.mp (pow_eq_zero_iff two_ne_zero |>.mp h1)
    have hy := sub_eq_zero.mp (pow_eq_zero_iff two_ne_zero |>.mp h2)
    exact ⟨hx.symm, hy.symm⟩
  · rintro ⟨rfl, rfl⟩
    simp

/-- C3: the hover lookup computes sample pixel positions with the identical
linear mapping used for drawing; a selected sample always lies in the windowed
data, at squared pixel distance below `225 = 15²` from the pointer (the
15-pixel threshold, distances compared through the strictly monotone square
root), and at minimal distance among all samples; a pointer placed exactly at
some sample's computed pixel position selects a sample whose position is
exactly the pointer position — in particular, when that sample is the only
one at that pixel position, it itself is selected; and when every sample is
at distance at least 15 pixels (e.g. the nearest is 20 pixels away), no
sample is selected and the tooltip stays hidden. -/
theorem handleMouseMove_nearest (width height : ℚ) (data : List Sample)
    (mouseX mouseY : ℚ) :
    (∀ (w h minV vR minT tR : ℚ) (p : Sample),
      hoverPointPos w h minV vR minT tR p = drawPointPos w h minV vR minT tR p) ∧
    (∀ p, handleMouseMove width height data mouseX mouseY = some p →
      p ∈ data ∧ hoverDistSq width height data mouseX mouseY p < 225 ∧
      ∀ q ∈ data, hoverDistSq width height data mouseX mouseY p ≤
        hoverDistSq width height data mouseX mouseY q) ∧
    (∀ q ∈ data,
      hoverPointPos width height (minValue data) (valueRange data)
        ((minTime data : ℚ)) ((timeRange data : ℚ)) q = (mouseX, mouseY) →
      ∃ p ∈ data, handleMouseMove width height data mouseX mouseY = some p ∧
        hoverPointPos width height (minValue data) (valueRange data)
          ((minTime data : ℚ)) ((timeRange data : ℚ)) p = (mouseX, mouseY)) ∧
    (∀ q ∈ data,
      hoverPointPos width height (minValue data) (valueRange data)
        ((minTime data : ℚ)) ((timeRange data : ℚ)) q = (mouseX, mouseY) →
      (∀ r ∈ data,
        hoverPointPos width height (minValue data) (valueRange data)
          ((minTime data : ℚ)) ((timeRange data : ℚ)) r = (mouseX, mouseY) →
        r = q) →
      handleMouseMove width height data mouseX mouseY = some q) ∧
    ((∀ q ∈ data, 225 ≤ hoverDistSq width height data mouseX mouseY q) →
      handleMouseMove width height data mouseX mouseY = none) := by
  have hexact : ∀ q ∈ data,
      hoverPointPos width height (minValue data) (valueRange data)
        ((minTime data : ℚ)) ((timeRange data : ℚ)) q = (mouseX, mouseY) →
      ∃ p ∈ data, handleMouseMove width height data mouseX mouseY = some p ∧
        hoverPointPos width height (minValue data) (valueRange data)
          ((minTime data : ℚ)) ((timeRange data : ℚ)) p = (mouseX, mouseY) := by
    intro q hq hpos
    have hdq : hoverDistSq width height data mouseX mouseY q = 0 := by
      unfold hoverDistSq
      rw [hpos]
      simp [distSq]
    have h225 : hoverDistSq width height data mouseX mouseY q < 225 := by
      rw [hdq]; norm_num
    rcases closestSpec_isSome _ data q hq h225 with ⟨p, hp⟩
    have hhp : handleMouseMove width height data mouseX mouseY = some p := by
      rw [handleMouseMove_eq_spec]; exact hp
    rcases closestSpec_split _ _ _ hp with ⟨l1, l2, hsplit, _, hmin, _⟩
    have hpmem : p ∈ data := by
      rw [hsplit]
      exact List.mem_append_right l1 (List.mem_cons_self _ _)
    have hdp : hoverDistSq width height data mouseX mouseY p = 0 :=
      le_antisymm (hdq ▸ hmin q hq) (by
        unfold hoverDistSq
        exact distSq_nonneg _ _ _ _)
    refine ⟨p, hpmem, hhp, ?_⟩
    have := (distSq_eq_zero_iff mouseX mouseY
      (hoverPointPos width height (minValue data) (valueRange data)
        ((minTime data : ℚ)) ((timeRange data : ℚ)) p).1
      (hoverPointPos width height (minValue data) (valueRange data)
        ((minTime data : ℚ)) ((timeRange data : ℚ)) p).2).mp hdp
    exact Prod.ext this.1 this.2
  refine ⟨fun _ _ _ _ _ _ _ => rfl, ?_, hexact, ?_, ?_⟩
  · intro p hp
    rw [handleMouseMove_eq_spec] at hp
    rcases closestSpec_split _ _ _ hp with ⟨l1, l2, hsplit, h225, hmin, _⟩
    refine ⟨?_, h225, hmin⟩
    rw [hsplit]
    exact List.mem_append_right l1 (List.mem_cons_self _ _)
  · intro q hq hpos huniq
    rcases hexact q hq hpos with ⟨p, hpmem, hhp, hppos⟩
    rw [huniq p hpmem hppos] at hhp
    exact hhp
  · intro hfar
    rw [handleMouseMove_eq_spec]
    exact closestSpec_none _ data hfar

/-- C10: the hover lookup is a deterministic function of the windowed data and
pointer position, and the strict `distance < closestDistance` comparison makes
the first sample in sequence order win exact-distance ties: whenever a sample
is selected, the data splits as `l1 ++ p :: l2` where every sample before `p`
has strictly greater pixel distance, `p`'s squared distance is below
`225 = 15²`, and `p`'s distance is minimal over the whole windowed list. -/
theorem handleMouseMove_first_min (width height : ℚ) (data : List Sample)
    (mouseX mouseY : ℚ) (p : Sample)
    (hp : handleMouseMove width height data mouseX mouseY = some p) :
    ∃ l1 l2, data = l1 ++ p :: l2 ∧
      hoverDistSq width height data mouseX mouseY p < 225 ∧
      (∀ q ∈ data, hoverDistSq width height data mouseX mouseY p ≤
        hoverDistSq width height data mouseX mouseY q) ∧
      ∀ q ∈ l1, hoverDistSq width height data mouseX mouseY p <
        hoverDistSq width height data mouseX mouseY q := by
  rw [handleMouseMove_eq_spec] at hp
  exact closestSpec_split _ _ _ hp

/-- Witness for C10 at a concrete exact tie: on an 81x81 surface the samples
`{0, 0}` and `{1, 1}` map to pixels `(50, 31)` and `(51, 30)`, both at squared
distance `1/2` from the pointer `(50.5, 30.5)`; the lookup selects the
earlier sample `{0, 0}`. -/
theorem handleMouseMove_first_min_witness :
    ∃ l1 l2, ([⟨0, 0⟩, ⟨1, 1⟩] : List Sample) = l1 ++ (⟨0, 0⟩ : Sample) :: l2 ∧
      hoverDistSq 81 81 [⟨0, 0⟩, ⟨1, 1⟩] (101 / 2) (61 / 2) ⟨0, 0⟩ < 225 ∧
      (∀ q ∈ ([⟨0, 0⟩, ⟨1, 1⟩] : List Sample),
        hoverDistSq 81 81 [⟨0, 0⟩, ⟨1, 1⟩] (101 / 2) (61 / 2) ⟨0, 0⟩ ≤
          hoverDistSq 81 81 [⟨0, 0⟩, ⟨1, 1⟩] (101 / 2) (61 / 2) q) ∧
      ∀ q ∈ l1, hoverDistSq 81 81 [⟨0, 0⟩, ⟨1, 1⟩] (101 / 2) (61 / 2) ⟨0, 0⟩ <
        hoverDistSq 81 81 [⟨0, 0⟩, ⟨1, 1⟩] (101 / 2) (61 / 2) q :=
  handleMouseMove_first_min 81 81 [⟨0, 0⟩, ⟨1, 1⟩] (101 / 2) (61 / 2) ⟨0, 0⟩
    (by norm_num [handleMouseMove, closestAux, hoverDistSq, hoverPointPos,
      distSq, minValue, maxValue, valueRange, minTime, maxTime, timeRange,
      jsMin, jsMax, padLeft, padRight, padTop, padBottom])

/-- One data point produced by the InfluxDB query layer
(`{time, value, field, measurement}`, the `time` an ISO-8601 instant —
modelled as a number, which sorts the same way the fixed-format ISO strings
sort lexicographically). -/
structure InfluxPoint where
  time : ℕ
  value : ℚ
deriving DecidableEq

/-- The field-keyed bundle `getAllEnvironmentalData` resolves with, plus its
creation timestamp `new Date().toISOString()`. -/
structure EnvBundle where
  temperature : List InfluxPoint
  humidity : List InfluxPoint
  pressure : List InfluxPoint
  timestamp : ℕ
deriving DecidableEq

/-- `Promise.all` over three settled promises: resolves with the triple when
all three resolve, rejects when any rejects. (`Promise.all` rejects with the
first-settled rejection; which rejection value is surfaced is irrelevant to
the join contract, and the embedding surfaces the first in field order.) -/
def promiseAll3 {ε α β γ : Type} :
    Except ε α → Except ε β → Except ε γ → Except ε (α × β × γ)
  | .error e, _, _ => .error e
  | _, .error e, _ => .error e
  | _, _, .error e => .error e
  | .ok a, .ok b, .ok c => .ok (a, b, c)

/-- `getAllEnvironmentalData`: `Promise.all` of the three per-field
`getEnvironmentalData` calls; on success, the field-keyed bundle with a
creation timestamp; the `try/catch` re-throws any rejection. The three query
results stand as parameters because the store is an external collaborator. -/
def getAllEnvironmentalData {ε : Type}
    (temperature humidity pressure : Except ε (List InfluxPoint))
    (now : ℕ) : Except ε EnvBundle :=
  match promiseAll3 temperature humidity pressure with
  | .error e => .error e
  | .ok (t, h, p) => .ok ⟨t, h, p, now⟩

/-- Whether a settled promise rejected. -/
def isErr {ε α : Type} : Except ε α → Bool
  | .error _ => true
  | .ok _ => false

/-- C1: if exactly one of the three per-field queries rejects, the
bundle-producing aggregation call rejects as a whole — no partial bundle
(with the other two fields' results) is ever returned. -/
theorem getAllEnvironmentalData_all_or_nothing {ε : Type}
    (qt qh qp : Except ε (List InfluxPoint)) (now : ℕ)
    (h : (isErr qt).toNat + (isErr qh).toNat + (isErr qp).toNat = 1) :
    ∃ e, getAllEnvironmentalData qt qh qp now = Except.error e := by
  rcases qt with et | t
  · rcases qh with eh | hm <;> rcases qp with ep | pr <;> exact ⟨et, rfl⟩
  · rcases qh with eh | hm
    · rcases qp with ep | pr <;> exact ⟨eh, rfl⟩
    · rcases qp with ep | pr
      · exact ⟨ep, rfl⟩
      · simp [isErr] at h

/-- Witness for C1: the temperature query rejects while humidity and pressure
resolve; the aggregation rejects. -/
theorem getAllEnvironmentalData_all_or_nothing_witness :
    ∃ e, getAllEnvironmentalData (Except.error "store unreachable")
      (Except.ok ([] : List InfluxPoint)) (Except.ok ([] : List InfluxPoint)) 0
      = Except.error e :=
  getAllEnvironmentalData_all_or_nothing (ε := String)
    (Except.error "store unreachable") (Except.ok []) (Except.ok []) 0
    (by decide)

/-- One per-field entry of `getLatestData`'s result (`{value, time}`, the
time in epoch milliseconds). -/
structure LatestEntry where
  value : ℚ
  time : Int
deriving DecidableEq

/-- JS `Math.round`: round half toward positive infinity. -/
def jsRound (q : ℚ) : Int := ⌊q + 1 / 2⌋

/-- One entry of the `/latest` route's `dataStatus`: the latest sample spread
together with `isRecent` and `ageMinutes`. -/
structure LatestStatusEntry where
  value : ℚ
  time : Int
  isRecent : Bool
  ageMinutes : Int

/-- The `/latest` handler's per-field annotation:
`tenMinutesAgo = now - 10 * 60 * 1000`, `isRecent: dataTime > tenMinutesAgo`,
`ageMinutes: Math.round((now - dataTime) / (1000 * 60))`. -/
def latestStatusEntry (now : Int) (e : LatestEntry) : LatestStatusEntry :=
  { value := e.value
    time := e.time
    isRecent := decide (now - 10 * 60 * 1000 < e.time)
    ageMinutes := jsRound (((now - e.time : Int) : ℚ) / (1000 * 60)) }

/-- C9 (as stated) fails at the boundary: a sample whose age is exactly
10 minutes (`now = 600000`, sample time `0`) is flagged NOT recent, because
the code compares `dataTime > now - 10min` strictly, while the claim's
`now - sampleTime <= 10 minutes` would flag it recent. -/
theorem latest_isRecent_cex :
    (latestStatusEntry 600000 ⟨0, 0⟩).isRecent = false ∧
    (600000 : Int) - 0 ≤ 10 * 60 * 1000 := by
  exact ⟨by decide, by decide⟩

/-- C9 (amended): the recency flag satisfies the strict comparison
`isRecent = (now - sampleTime < 10 minutes)` with the hardcoded 10-minute
threshold; a sample aged exactly 10 minutes is not flagged recent. -/
theorem latest_isRecent_spec (now : Int) (e : LatestEntry) :
    ((latestStatusEntry now e).isRecent = true) ↔
      now - e.time < 10 * 60 * 1000 := by
  show (decide (now - 10 * 60 * 1000 < e.time) = true) ↔ _
  rw [decide_eq_true_iff]
  omega

/-- A JS error as the error middleware inspects it: its `name` (set by the
custom error classes) and its `code` (set by network failures such as
`ECONNREFUSED`). -/
structure JsError where
  name : String
  code : String
deriving DecidableEq

/-- `getLatestData`'s resolved shape: one optional entry per field
(a field key is absent when the store returned no row for it). -/
structure LatestData where
  temperature : Option LatestEntry
  humidity : Option LatestEntry
  pressure : Option LatestEntry
deriving DecidableEq

/-- The HTTP response the status route produces: either the success body
(whose `status.overall` and `status.influxDB.connected` are carried) or the
error middleware's `{success:false, error:{status, message}}` body. -/
inductive StatusResponse where
  | ok (overall : String) (connected : Bool)
  | errorResponse (status : ℕ) (message : String)
deriving DecidableEq

/-- The global `errorHandler` middleware's classification chain: known error
names map to 4xx statuses, connection failures to 503/504, anything else to
500; a response is always produced (the process keeps serving). -/
def errorHandlerResponse (err : JsError) : StatusResponse :=
  if err.name = "ValidationError" then .errorResponse 400 "Validation Error"
  else if err.name = "UnauthorizedError" then .errorResponse 401 "Unauthorized"
  else if err.name = "ForbiddenError" then .errorResponse 403 "Forbidden"
  else if err.name = "NotFoundError" then .errorResponse 404 "Not Found"
  else if err.name = "ConflictError" then .errorResponse 409 "Conflict"
  else if err.name = "TooManyRequestsError" then .errorResponse 429 "Too Many Requests"
  else if err.code = "ECONNREFUSED" then .errorResponse 503 "Service Unavailable"
  else if err.code = "ETIMEDOUT" then .errorResponse 504 "Gateway Timeout"
  else .errorResponse 500 "Internal Server Error"

/-- Per-field freshness flag of the `/status` handler:
`isHealthy: (now - dataTime) < 15 * 60 * 1000`. -/
def isHealthyOf (now : Int) (e : LatestEntry) : Bool :=
  decide (now - e.time < 15 * 60 * 1000)

/-- The `/status` handler's success path (reached only when `testConnection`
resolved — with a truthy result object, so `influxDBConnected` is truthy):
`overall = (influxDBConnected && some(isHealthy)) ? 'healthy' : 'warning'`,
iterating the fields present in the latest data. -/
def statusHandler (latest : LatestData) (now : Int) : StatusResponse :=
  let fresh := ([latest.temperature, latest.humidity, latest.pressure].filterMap id).map
    (isHealthyOf now)
  .ok (if fresh.any id then "healthy" else "warning") true

/-- The `/status` route end to end: `await testConnection()` first, then
`await getLatestData()`; a rejection of either propagates through
`asyncHandler` to the `errorHandler` middleware, which answers with its error
body — the server keeps serving and always produces a response. -/
def statusEndpoint (conn : Except JsError Unit)
    (latest : Except JsError LatestData) (now : Int) : StatusResponse :=
  match conn with
  | .error e => errorHandlerResponse e
  | .ok _ =>
    match latest with
    | .error e => errorHandlerResponse e
    | .ok ld => statusHandler ld now

/-- C7 (as stated) fails: when the store is unreachable, `testConnection`
rejects (it never resolves falsy), so the status endpoint answers through the
error middleware with the 503 body — `status.overall` is absent, not
`"warning"`. Concretely, for a connection-refused failure the response is the
503 error body and is not a success body carrying `overall = "warning"`. -/
theorem statusEndpoint_unreachable_cex :
    statusEndpoint (Except.error ⟨"Error", "ECONNREFUSED"⟩)
      (Except.error ⟨"Error", "ECONNREFUSED"⟩) 0
      = StatusResponse.errorResponse 503 "Service Unavailable" ∧
    ¬ ∃ c, statusEndpoint (Except.error ⟨"Error", "ECONNREFUSED"⟩)
      (Except.error ⟨"Error", "ECONNREFUSED"⟩) 0
      = StatusResponse.ok "warning" c := by
  refine ⟨by decide, ?_⟩
  rintro ⟨c, hc⟩
  have h1 : statusEndpoint (Except.error ⟨"Error", "ECONNREFUSED"⟩)
      (Except.error ⟨"Error", "ECONNREFUSED"⟩) 0
      = StatusResponse.errorResponse 503 "Service Unavailable" := by decide
  rw [h1] at hc
  exact StatusResponse.noConfusion hc

/-- C7 (amended): when the store is unreachable the status handler's awaited
`testConnection` rejects, so the endpoint responds through the error
middleware — always producing a response (the process does not terminate),
a connection-refused failure mapping to 503 Service Unavailable — and that
error body carries no `status.overall`; `status.overall` exists exactly on
the success path, where it is always present and always `"healthy"` or
`"warning"`. -/
theorem statusEndpoint_spec :
    (∀ (e : JsError) (latest : Except JsError LatestData) (now : Int),
      statusEndpoint (Except.error e) latest now = errorHandlerResponse e) ∧
    (∀ e : JsError, ∃ s m,
      errorHandlerResponse e = StatusResponse.errorResponse s m) ∧
    errorHandlerResponse ⟨"Error", "ECONNREFUSED"⟩
      = StatusResponse.errorResponse 503 "Service Unavailable" ∧
    (∀ (ld : LatestData) (now : Int),
      statusEndpoint (Except.ok ()) (Except.ok ld) now
        = StatusResponse.ok "healthy" true ∨
      statusEndpoint (Except.ok ()) (Except.ok ld) now
        = StatusResponse.ok "warning" true) := by
  refine ⟨fun e latest now => rfl, ?_, by decide, ?_⟩
  · intro e
    unfold errorHandlerResponse
    repeat' split
    all_goals exact ⟨_, _, rfl⟩
  · intro ld now
    by_cases hc : (([ld.temperature, ld.humidity, ld.pressure].filterMap id).map
      (isHealthyOf now)).any id
    · left
      simp [statusEndpoint, statusHandler, hc]
    · right
      simp [statusEndpoint, statusHandler, hc]

/-- The `units` table of `timeRangeToMs` (milliseconds per unit letter). -/
def unitMs : Char → ℕ
  | 's' => 1000
  | 'm' => 60 * 1000
  | 'h' => 60 * 60 * 1000
  | 'd' => 24 * 60 * 60 * 1000
  | 'w' => 7 * 24 * 60 * 60 * 1000
  | _ => 0

/-- Membership in the regex character class `[smhdw]`. -/
def isUnitChar (c : Char) : Bool :=
  c == 's' || c == 'm' || c == 'h' || c == 'd' || c == 'w'

/-- `parseInt` on a nonempty digit string. -/
def digitsToNat (ds : List Char) : ℕ :=
  ds.foldl (fun a c => 10 * a + (c.toNat - 48)) 0

/-- Anchored match of the regex `^(\d+)([smhdw])$`: the maximal digit prefix
must be nonempty and be followed by exactly one unit letter (the unit class
contains no digit, so the greedy digit group is forced). -/
def matchNumUnit (cs : List Char) : Option (ℕ × Char) :=
  match cs.takeWhile Char.isDigit, cs.dropWhile Char.isDigit with
  | [], _ => none
  | ds, [u] => if isUnitChar u then some (digitsToNat ds, u) else none
  | _, _ => none

/-- `timeRangeToMs` from the client helpers: match the string against
`/^(\d+)([smhdw])$/` — note: no optional leading minus — and return
`parseInt(number) * units[unit]`, or `0` when the regex does not match. -/
def timeRangeToMs (timeRange : String) : ℕ :=
  match matchNumUnit timeRange.data with
  | none => 0
  | some (n, u) => n * unitMs u

/-- `isValidTimeRange` from the server validation helpers:
`/^-?\d+[smhdw]$/.test(timeStr) || timeStr === 'now()'` (this helper allows
the leading minus; it is exported but not wired into any route). -/
def isValidTimeRange (timeStr : String) : Bool :=
  (match timeStr.data with
   | '-' :: rest => (matchNumUnit rest).isSome
   | cs => (matchNumUnit cs).isSome) || timeStr == "now()"

/-- The Joi pattern `/^\d+[smhdw]$/` applied to `windowPeriod` by
`schemas.timeRange`. -/
def windowPeriodOk (s : String) : Bool := (matchNumUnit s.data).isSome

/-- A `/sensors/*` time-range query string as the validation middleware sees
it (each parameter possibly absent). -/
structure TimeRangeQuery where
  startTime : Option String
  endTime : Option String
  windowPeriod : Option String

/-- `schemas.timeRange` under `validate(.., 'query')`: `startTime` and
`endTime` are only constrained to be strings (with defaults `'-1h'` and
`'now()'`), and only `windowPeriod` carries the `/^\d+[smhdw]$/` pattern
(default `'5m'`); on success the validated values replace the query. -/
def validateTimeRangeSchema (q : TimeRangeQuery) :
    Except String (String × String × String) :=
  let st := q.startTime.getD "-1h"
  let et := q.endTime.getD "now()"
  let wp := q.windowPeriod.getD "5m"
  if windowPeriodOk wp then Except.ok (st, et, wp)
  else Except.error "windowPeriod fails pattern"

/-- C6 (as stated) fails twice on the code: `timeRangeToMs "-2h"` returns the
no-match sentinel `0`, not `7200000`, because its regex accepts only unsigned
forms; and the string `"bogus"` passes the validation layer as a
`startTime`/`endTime` (the `timeRange` schema places no pattern on them), so
it does reach the query layer. -/
theorem timeRange_claim_cex :
    timeRangeToMs "-2h" ≠ 7200000 ∧ timeRangeToMs "-2h" = 0 ∧
    isErr (validateTimeRangeSchema ⟨some "bogus", some "bogus", none⟩) = false := by
  decide

/-- C6 (amended): the unsigned string `"2h"` parses to 7200000 ms while the
signed `"-2h"` fails `timeRangeToMs`'s unsigned-only regex and yields its
no-match result `0`; `"bogus"` is rejected by the (unwired) `isValidTimeRange`
helper — which does accept `"-2h"` — and by the schema's `windowPeriod`
pattern, but as `startTime`/`endTime` the validation schema imposes no
pattern, so `"bogus"` passes validation and reaches the query layer. -/
theorem timeRange_parse_spec :
    timeRangeToMs "2h" = 7200000 ∧
    timeRangeToMs "-2h" = 0 ∧
    isValidTimeRange "-2h" = true ∧
    isValidTimeRange "bogus" = false ∧
    windowPeriodOk "bogus" = false ∧
    isErr (validateTimeRangeSchema ⟨some "bogus", some "bogus", none⟩) = false ∧
    isErr (validateTimeRangeSchema ⟨none, none, some "bogus"⟩) = true := by
  decide

/-- Decimal digits of a natural number, fuel-structured so that evaluation
reduces in the kernel; `natStr` always passes sufficient fuel. -/
def natDigitsCore : ℕ → ℕ → List Char
  | 0, _ => []
  | fuel + 1, n =>
      if n < 10 then [Nat.digitChar n]
      else natDigitsCore fuel (n / 10) ++ [Nat.digitChar (n % 10)]

/-- Decimal rendering of a natural number — JS template-literal rendering of
an integer-valued number. -/
def natStr (n : ℕ) : String := String.mk (natDigitsCore (n + 1) n)

/-- JS rendering of an integer. -/
def intStr (i : ℤ) : String :=
  if i < 0 then "-" ++ natStr i.natAbs else natStr i.natAbs

/-- JS `${number}` rendering of a CSV cell value, modelled on ℚ: integral
values render as their decimal digits exactly as JS renders them; a
non-integral value renders as `num/den` (its JS rendering is binary-float
specific and out of scope — the export claims depend only on integral cells
and on the fact that a number never renders as the empty string). -/
def numStr (v : ℚ) : String :=
  if v.den = 1 then intStr v.num else intStr v.num ++ "/" ++ natStr v.den

/-- One CSV cell: `${values.field || ''}` — the empty string both when the
timestamp map has no entry for this field (undefined) and when the stored
value is `0`, which is falsy in JS. -/
def cellStr : Option ℚ → String
  | none => ""
  | some v => if v = 0 then "" else numStr v

/-- The value the export's timestamp map holds for one field at one
timestamp: repeated `map.set` leaves the value of the last point of that
field carrying the timestamp, or no entry when the field has no such point. -/
def lookupLast (l : List InfluxPoint) (t : ℕ) : Option ℚ :=
  ((l.filter (fun p => p.time = t)).getLast?).map InfluxPoint.value

/-- The export's row keys: every distinct `point.time` across the three
fields (`Map` insertion keeps one entry per distinct key), sorted ascending —
`Array.from(timeValueMap.keys()).sort()` on same-format ISO-8601 strings
orders them chronologically. -/
def exportTimes (data : EnvBundle) : List ℕ :=
  (((data.temperature ++ data.humidity ++ data.pressure).map
    InfluxPoint.time).dedup).insertionSort (· ≤ ·)

/-- One CSV data row:
`${time},${values.temperature || ''},${values.humidity || ''},${values.pressure || ''}\n`. -/
def csvRow (data : EnvBundle) (time : ℕ) : String :=
  natStr time ++ "," ++ cellStr (lookupLast data.temperature time) ++ ","
    ++ cellStr (lookupLast data.humidity time) ++ ","
    ++ cellStr (lookupLast data.pressure time) ++ "\n"

/-- The `/export` handler's CSV payload: the header line, then one row per
distinct timestamp in ascending order. -/
def csvExport (data : EnvBundle) : String :=
  "timestamp,temperature,humidity,pressure\n"
    ++ String.join ((exportTimes data).map (csvRow data))

/-- The C5 claim's cell rule as stated: within the exported rows, a field's
cell is empty exactly when that field has no sample at that row's
timestamp. -/
def csvCellEmptyIffNoSample (data : EnvBundle) : Prop :=
  ∀ t ∈ exportTimes data,
    ∀ l ∈ [data.temperature, data.humidity, data.pressure],
      (cellStr (lookupLast l t) = "" ↔ lookupLast l t = none)

/-- C5 (as stated) fails when a sample's value is `0`: for the bundle whose
temperature series is `[{time 100, value 0}]`, the temperature cell of row
100 is empty even though the field has a sample there — `value || ''`
renders the falsy `0` as the empty string. -/
theorem csvExport_zero_cell_cex :
    ¬ csvCellEmptyIffNoSample ⟨[⟨100, 0⟩], [], [], 0⟩ ∧
    csvExport ⟨[⟨100, 0⟩], [], [], 0⟩
      = "timestamp,temperature,humidity,pressure\n100,,,\n" := by
  constructor
  · unfold csvCellEmptyIffNoSample
    decide
  · decide

theorem natDigitsCore_ne_nil (fuel n : ℕ) : natDigitsCore (fuel + 1) n ≠ [] := by
  unfold natDigitsCore
  split
  · simp
  · simp

theorem natStr_ne_empty (n : ℕ) : natStr n ≠ "" := by
  intro h
  exact natDigitsCore_ne_nil n n (congrArg String.data h)

theorem intStr_ne_empty (i : ℤ) : intStr i ≠ "" := by
  unfold intStr
  split
  · intro h
    have hd := congrArg String.data h
    simp at hd
  · exact natStr_ne_empty _

theorem numStr_ne_empty (v : ℚ) : numStr v ≠ "" := by
  unfold numStr
  split
  · exact intStr_ne_empty _
  · intro h
    have hd := congrArg String.data h
    simp at hd

/-- C5 (amended): the CSV export is the header line
`timestamp,temperature,humidity,pressure` followed by one row per distinct
timestamp occurring in any field's series, in ascending order with no
duplicate rows; a field's cell is empty exactly when that field has no
sample at that timestamp **or** its sample there has value `0` (`0` is falsy
under `value || ''`); and the claim's concrete example — temperature 20 and
humidity 50 at a single timestamp — exports exactly as stated. -/
theorem csvExport_spec :
    (∀ data : EnvBundle,
      csvExport data = "timestamp,temperature,humidity,pressure\n"
        ++ String.join ((exportTimes data).map (csvRow data)) ∧
      List.Sorted (· ≤ ·) (exportTimes data) ∧
      (exportTimes data).Nodup ∧
      ∀ t : ℕ, (t ∈ exportTimes data ↔
        (∃ p ∈ data.temperature, p.time = t) ∨
        (∃ p ∈ data.humidity, p.time = t) ∨
        (∃ p ∈ data.pressure, p.time = t))) ∧
    (∀ (l : List InfluxPoint) (t : ℕ),
      cellStr (lookupLast l t) = "" ↔
        (lookupLast l t = none ∨ lookupLast l t = some 0)) ∧
    csvExport ⟨[⟨100, 20⟩], [⟨100, 50⟩], [], 0⟩
      = "timestamp,temperature,humidity,pressure\n100,20,50,\n" := by
  refine ⟨?_, ?_, by decide⟩
  · intro data
    refine ⟨rfl, List.sorted_insertionSort _ _, ?_, ?_⟩
    · exact ((List.perm_insertionSort _ _).nodup_iff).mpr (List.nodup_dedup _)
    · intro t
      simp [exportTimes]
  · intro l t
    cases ho : lookupLast l t with
    | none => simp [cellStr]
    | some v =>
      by_cases hz : v = 0
      · subst hz
        simp [cellStr]
      · simp [cellStr, hz]
        exact numStr_ne_empty v
